import Mathlib

/-!
Verification of the spinner / progress-scope core of the terminal-app
skeleton (`src/terminalapp/utils/ui.py`).

The Python code is shallowly embedded:
* `Colors` constants are the ANSI escape strings from the source.
* `Spinner` is a record holding the fields `message`, `color`, `running`,
  and `thread` (modelled as a `Bool`: whether a thread object has been
  created); its methods `start`, `stop`, `update_message` and the frame
  rendering of `_animate` are pure functions returning the new state and
  the strings written to stdout.
* Python's `str.replace` is modelled by `pyReplace` (left-to-right,
  non-overlapping replacement of every occurrence), and the truthiness of
  `a or b` on strings by `pyOr`.
* The `show_progress` decorator and the `UI.progress` context manager are
  modelled as functions of the enclosed work, where the work is the list
  of `update_message` calls it makes followed by its outcome
  (`Except PyErr α`, mirroring `except Exception`); they return the trace
  of spinner calls, the stdout writes, and the propagated result.
* The concurrency of `Spinner.stop` versus the background `_animate`
  thread is an interleaving small-step machine (`MState`, `Step`) over
  both program counters, used for the join-ordering theorem.
-/

namespace Colors

def BLUE : String := "\x1b[94m"
def CYAN : String := "\x1b[96m"
def GREEN : String := "\x1b[92m"
def YELLOW : String := "\x1b[93m"
def RED : String := "\x1b[91m"
def MAGENTA : String := "\x1b[95m"
def ENDC : String := "\x1b[0m"

end Colors

/-- The fixed braille animation cycle `Spinner.FRAMES` from the source. -/
def FRAMES : List String := ["⠋", "⠙", "⠹", "⠸", "⠼", "⠴", "⠦", "⠧", "⠇", "⠏"]

/-- The fixed per-tick sleep of `_animate` (`time.sleep(0.08)`), in seconds. -/
def sleepSeconds : ℚ := 0.08

/-- Python `str.replace`, char-list level: scan left to right, replacing each
non-overlapping occurrence of `pat` by `rep`. Fuel-driven structural
recursion; `fuel = length of the scanned list` always suffices because every
step consumes at least one character. -/
def pyReplaceAux (pat rep : List Char) : Nat → List Char → List Char
  | _, [] => []
  | 0, l => l
  | fuel + 1, c :: rest =>
    if pat <+: (c :: rest) ∧ pat ≠ [] then
      rep ++ pyReplaceAux pat rep fuel (rest.drop (pat.length - 1))
    else
      c :: pyReplaceAux pat rep fuel rest

/-- Python `s.replace(pat, rep)` on strings (for non-empty `pat`). -/
def pyReplace (s pat rep : String) : String :=
  String.mk (pyReplaceAux pat.toList rep.toList s.toList.length s.toList)

/-- Python string truthiness of `a or b`: `a` if non-empty, else `b`. -/
def pyOr (a b : String) : String := if a = "" then b else a

/-- The `Spinner` object state: `message`, `color`, `running`, and whether a
thread object exists (`self.thread is not None`). -/
structure Spinner where
  message : String
  color : String
  running : Bool
  thread : Bool
deriving Repr, DecidableEq

/-- The constructor `Spinner.__init__(message, color)`. -/
def Spinner.init (message color : String) : Spinner :=
  ⟨message, color, false, false⟩

/-- The string one tick of `_animate` writes:
`f"\r{self.color}{frame}{Colors.ENDC} {self.message}"` with
`frame = FRAMES[idx % len(FRAMES)]`. -/
def frameStr (color : String) (idx : Nat) (message : String) : String :=
  "\r" ++ color ++ (FRAMES.getD (idx % FRAMES.length) "") ++ Colors.ENDC ++ " " ++ message

/-- The clearing write of `stop`:
`"\r" + " " * (len(self.message) + 10) + "\r"`. -/
def clearStr (message : String) : String :=
  "\r" ++ String.mk (List.replicate (message.length + 10) ' ') ++ "\r"

/-- The final status line printed by `stop` when `final_message` is truthy:
`print(f"{symbol_color}{symbol}{Colors.ENDC} {final_message}")`. -/
def finalStr (symbol_color symbol final_message : String) : String :=
  symbol_color ++ symbol ++ Colors.ENDC ++ " " ++ final_message ++ "\n"

/-- The loop `Spinner._animate` restricted to `n` ticks starting at frame
index `idx`: the list of stdout writes, one per tick, the index advancing
by one each tick. -/
def Spinner.animate (s : Spinner) : Nat → Nat → List String
  | _, 0 => []
  | idx, n + 1 => frameStr s.color idx s.message :: s.animate (idx + 1) n

/-- The method `Spinner.start`: guarded by `if not self.running`; sets
`running`, creates and starts the thread. Returns the new state and whether
a new thread was launched. -/
def Spinner.start (s : Spinner) : Spinner × Bool :=
  if s.running then (s, false)
  else ({ s with running := true, thread := true }, true)

/-- The method `Spinner.stop(final_message, symbol, symbol_color)`: guarded
by `if self.running`; clears the flag, joins the thread, writes the clear
sequence, and prints the final line when `final_message` is non-empty.
Returns the new state and the list of stdout writes. -/
def Spinner.stop (s : Spinner) (final_message symbol symbol_color : String) :
    Spinner × List String :=
  if s.running then
    ({ s with running := false },
      clearStr s.message ::
        (if final_message = "" then [] else [finalStr symbol_color symbol final_message]))
  else (s, [])

/-- The method `Spinner.update_message(message)`: `self.message = message`. -/
def Spinner.update_message (s : Spinner) (message : String) : Spinner :=
  { s with message := message }

/-- A raised Python exception (an `Exception` instance), identified by its
`str(e)` description. -/
structure PyErr where
  msg : String
deriving Repr, DecidableEq

/-- The description `str(e)`. -/
def PyErr.str (e : PyErr) : String := e.msg

/-- One observable call made on the spinner by a progress scope or the
enclosed work. -/
inductive SpinEv
  | start
  | update (message : String)
  | stop (final_message symbol symbol_color : String)
deriving Repr, DecidableEq

def SpinEv.isStart : SpinEv → Bool
  | .start => true
  | _ => false

def SpinEv.isStop : SpinEv → Bool
  | .stop _ _ _ => true
  | _ => false

/-- The observable trace of one progress-scope activation: the spinner's
final object state, the sequence of calls made on it, and the stdout
writes. -/
structure Trace where
  spinner : Spinner
  events : List SpinEv
  out : List String
deriving Repr, DecidableEq

/-- A call `spinner.start()` recorded in a trace. -/
def callStart (t : Trace) : Trace :=
  { spinner := (t.spinner.start).1, events := t.events ++ [SpinEv.start], out := t.out }

/-- A call `spinner.update_message(m)` recorded in a trace. -/
def callUpdate (t : Trace) (m : String) : Trace :=
  { spinner := t.spinner.update_message m, events := t.events ++ [SpinEv.update m],
    out := t.out }

/-- A call `spinner.stop(f, sy, c)` recorded in a trace. -/
def callStop (t : Trace) (f sy c : String) : Trace :=
  { spinner := (t.spinner.stop f sy c).1, events := t.events ++ [SpinEv.stop f sy c],
    out := t.out ++ (t.spinner.stop f sy c).2 }

/-- The `show_progress(message, success_message)` decorator applied to a
unit of work. The work is modelled by the `update_message` calls it makes
(`us`) followed by its outcome (`Except.ok` value or raised exception). -/
def show_progress {α : Type} (message success_message : String)
    (us : List String) (oc : Except PyErr α) : Trace × Except PyErr α :=
  let t := Trace.mk (Spinner.init message Colors.CYAN) [] []
  let t := callStart t
  let t := us.foldl callUpdate t
  match oc with
  | Except.ok result =>
    let success_msg := pyOr success_message (pyReplace message "..." " ✓")
    (callStop t success_msg "✓" Colors.GREEN, Except.ok result)
  | Except.error e =>
    (callStop t ("Failed: " ++ PyErr.str e) "✗" Colors.RED, Except.error e)

/-- The `UI` object: `current_spinner`. -/
structure UI where
  current_spinner : Option Spinner

/-- The `UI.progress(message, success_message)` context manager applied to a
block of work (same work model as `show_progress`). Returns the final `UI`
state alongside the trace and the propagated result; the `finally` clause
resets `current_spinner` to `None`. -/
def UI.progress {α : Type} (_ui : UI) (message success_message : String)
    (us : List String) (oc : Except PyErr α) : UI × Trace × Except PyErr α :=
  let spinner := Spinner.init message Colors.CYAN
  let _ui := UI.mk (some spinner)
  let t := Trace.mk spinner [] []
  let t := callStart t
  let t := us.foldl callUpdate t
  match oc with
  | Except.ok result =>
    let success_msg := pyOr success_message (pyReplace message "..." " ✓")
    (UI.mk none, callStop t success_msg "✓" Colors.GREEN, Except.ok result)
  | Except.error e =>
    (UI.mk none, callStop t ("Failed: " ++ PyErr.str e) "✗" Colors.RED, Except.error e)


/-! ## Interleaving machine for `stop` versus the `_animate` thread -/

/-- One stdout write, tagged by which source line produced it. -/
inductive OutEv
  | frame (s : String)
  | clearLine (s : String)
  | finalLine (s : String)
deriving Repr, DecidableEq

/-- Program counter of the `_animate` loop: about to test `self.running`,
about to perform the frame write (the test already passed), or exited. -/
inductive AnimPC
  | check
  | write
  | exited
deriving Repr, DecidableEq

/-- Program counter of a `stop()` call: at the `if self.running` test,
blocked in `self.thread.join()`, at the clearing write, at the final
`print`, or returned. -/
inductive StopPC
  | entry
  | waitJoin
  | doClear
  | doFinal
  | returned
deriving Repr, DecidableEq

/-- Joint state of the foreground `stop()` call and the background
`_animate` thread of one spinner. `out` is the stdout write history. -/
structure MState where
  running : Bool
  message : String
  color : String
  idx : Nat
  animPC : AnimPC
  stopPC : StopPC
  out : List OutEv
deriving Repr, DecidableEq

/-- Interleaving small-step relation, parametrised by the arguments of the
`stop()` call. Animation steps: the loop test reads `running`; the write
step emits the current frame and advances the index. Stop steps follow the
source: the guarded flag flip, the join (enabled only once the animation
thread has exited), the clearing write, and the conditional final print. -/
inductive Step (final symbol symbol_color : String) : MState → MState → Prop
  | animCheckTrue {s : MState} (h1 : s.animPC = AnimPC.check) (h2 : s.running = true) :
      Step final symbol symbol_color s { s with animPC := AnimPC.write }
  | animCheckFalse {s : MState} (h1 : s.animPC = AnimPC.check) (h2 : s.running = false) :
      Step final symbol symbol_color s { s with animPC := AnimPC.exited }
  | animWrite {s : MState} (h1 : s.animPC = AnimPC.write) :
      Step final symbol symbol_color s
        { s with out := s.out ++ [OutEv.frame (frameStr s.color s.idx s.message)],
                 idx := s.idx + 1, animPC := AnimPC.check }
  | stopTestTrue {s : MState} (h1 : s.stopPC = StopPC.entry) (h2 : s.running = true) :
      Step final symbol symbol_color s { s with running := false, stopPC := StopPC.waitJoin }
  | stopTestFalse {s : MState} (h1 : s.stopPC = StopPC.entry) (h2 : s.running = false) :
      Step final symbol symbol_color s { s with stopPC := StopPC.returned }
  | stopJoin {s : MState} (h1 : s.stopPC = StopPC.waitJoin) (h2 : s.animPC = AnimPC.exited) :
      Step final symbol symbol_color s { s with stopPC := StopPC.doClear }
  | stopClear {s : MState} (h1 : s.stopPC = StopPC.doClear) :
      Step final symbol symbol_color s
        { s with out := s.out ++ [OutEv.clearLine (clearStr s.message)],
                 stopPC := StopPC.doFinal }
  | stopFinal {s : MState} (h1 : s.stopPC = StopPC.doFinal) :
      Step final symbol symbol_color s
        { s with out := s.out ++
            (if final = "" then [] else [OutEv.finalLine (finalStr symbol_color symbol final)]),
                 stopPC := StopPC.returned }

/-- Reflexive-transitive closure of `Step`. -/
inductive Reaches (final symbol symbol_color : String) : MState → MState → Prop
  | refl (s : MState) : Reaches final symbol symbol_color s s
  | tail {a b c : MState} : Reaches final symbol symbol_color a b →
      Step final symbol symbol_color b c → Reaches final symbol symbol_color a c

/-- No clearing write has been emitted yet. -/
def noClear (l : List OutEv) : Prop := ∀ cs, OutEv.clearLine cs ∉ l

/-- No frame write occurs in `l`. -/
def noFrame (l : List OutEv) : Prop := ∀ fs, OutEv.frame fs ∉ l

/-- Safety invariant for a `stop()` call that found the spinner running:
before the join completes no clear has been written, and from the clearing
write on the animation thread has exited and the history splits into a
clear-free prefix followed by a frame-free suffix. -/
def MInv (s : MState) : Prop :=
  (s.stopPC = StopPC.entry → s.running = true ∧ noClear s.out) ∧
  (s.stopPC = StopPC.waitJoin → s.running = false ∧ noClear s.out) ∧
  (s.stopPC = StopPC.doClear →
    s.running = false ∧ s.animPC = AnimPC.exited ∧ noClear s.out) ∧
  ((s.stopPC = StopPC.doFinal ∨ s.stopPC = StopPC.returned) →
    s.animPC = AnimPC.exited ∧
      ∃ l1 l2, s.out = l1 ++ l2 ∧ noClear l1 ∧ noFrame l2)

theorem MInv_step {final symbol symbol_color : String} {s s2 : MState}
    (hstep : Step final symbol symbol_color s s2) (hinv : MInv s) : MInv s2 := by
  obtain ⟨i1, i2, i3, i4⟩ := hinv
  cases hstep with
  | animCheckTrue h1 h2 =>
    refine ⟨fun h => i1 h, fun h => ?_, fun h => ?_, fun h => ?_⟩
    · have hr := (i2 h).1; rw [h2] at hr; exact Bool.noConfusion hr
    · have hr := (i3 h).1; rw [h2] at hr; exact Bool.noConfusion hr
    · have hE := (i4 h).1; rw [h1] at hE; exact AnimPC.noConfusion hE
  | animCheckFalse h1 h2 =>
    refine ⟨fun h => ?_, fun h => i2 h, fun h => ?_, fun h => ?_⟩
    · have hr := (i1 h).1; rw [h2] at hr; exact Bool.noConfusion hr
    · exact ⟨(i3 h).1, rfl, (i3 h).2.2⟩
    · exact ⟨rfl, (i4 h).2⟩
  | animWrite h1 =>
    refine ⟨fun h => ?_, fun h => ?_, fun h => ?_, fun h => ?_⟩
    · obtain ⟨hr, hnc⟩ := i1 h
      refine ⟨hr, fun cs hmem => ?_⟩
      rcases List.mem_append.1 hmem with hm | hm
      · exact hnc cs hm
      · simp at hm
    · obtain ⟨hr, hnc⟩ := i2 h
      refine ⟨hr, fun cs hmem => ?_⟩
      rcases List.mem_append.1 hmem with hm | hm
      · exact hnc cs hm
      · simp at hm
    · have hE := (i3 h).2.1; rw [h1] at hE; exact AnimPC.noConfusion hE
    · have hE := (i4 h).1; rw [h1] at hE; exact AnimPC.noConfusion hE
  | stopTestTrue h1 h2 =>
    refine ⟨fun h => StopPC.noConfusion h, fun _ => ⟨rfl, (i1 h1).2⟩,
      fun h => StopPC.noConfusion h, fun h => ?_⟩
    rcases h with h | h <;> exact StopPC.noConfusion h
  | stopTestFalse h1 h2 =>
    have hr := (i1 h1).1; rw [h2] at hr; exact Bool.noConfusion hr
  | stopJoin h1 h2 =>
    refine ⟨fun h => StopPC.noConfusion h, fun h => StopPC.noConfusion h,
      fun _ => ⟨(i2 h1).1, h2, (i2 h1).2⟩, fun h => ?_⟩
    rcases h with h | h <;> exact StopPC.noConfusion h
  | stopClear h1 =>
    refine ⟨fun h => StopPC.noConfusion h, fun h => StopPC.noConfusion h,
      fun h => StopPC.noConfusion h, fun _ => ?_⟩
    obtain ⟨hr, hE, hnc⟩ := i3 h1
    refine ⟨hE, s.out, [OutEv.clearLine (clearStr s.message)], rfl, hnc, fun fs hm => ?_⟩
    simp at hm
  | stopFinal h1 =>
    refine ⟨fun h => StopPC.noConfusion h, fun h => StopPC.noConfusion h,
      fun h => StopPC.noConfusion h, fun _ => ?_⟩
    obtain ⟨hE, l1, l2, hout, hnc, hnf⟩ := i4 (Or.inl h1)
    refine ⟨hE, l1,
      l2 ++ (if final = "" then [] else [OutEv.finalLine (finalStr symbol_color symbol final)]),
      ?_, hnc, fun fs hm => ?_⟩
    · rw [hout, List.append_assoc]
    · rcases List.mem_append.1 hm with hm | hm
      · exact hnf fs hm
      · split at hm <;> simp at hm

theorem MInv_reaches {final symbol symbol_color : String} {a b : MState}
    (h : Reaches final symbol symbol_color a b) (ha : MInv a) : MInv b := by
  induction h with
  | refl => exact ha
  | tail _ hs ih => exact MInv_step hs ih

theorem frames_precede_clear {l1 l2 : List OutEv} (h1 : noClear l1) (h2 : noFrame l2)
    {i j : Nat} {fs cs : String} (hf : (l1 ++ l2)[i]? = some (OutEv.frame fs))
    (hc : (l1 ++ l2)[j]? = some (OutEv.clearLine cs)) : i < j := by
  have hi : i < l1.length := by
    by_contra hge
    push_neg at hge
    rw [List.getElem?_append_right hge] at hf
    exact h2 fs (List.getElem?_mem hf)
  have hj : l1.length ≤ j := by
    by_contra hlt
    push_neg at hlt
    rw [List.getElem?_append_left hlt] at hc
    exact h1 cs (List.getElem?_mem hc)
  omega

theorem returned_no_step {final symbol symbol_color : String} {s : MState}
    (hret : s.stopPC = StopPC.returned) (hex : s.animPC = AnimPC.exited) :
    ∀ s2, ¬ Step final symbol symbol_color s s2 := by
  intro s2 hstep
  cases hstep with
  | animCheckTrue h1 _ => rw [hex] at h1; exact AnimPC.noConfusion h1
  | animCheckFalse h1 _ => rw [hex] at h1; exact AnimPC.noConfusion h1
  | animWrite h1 => rw [hex] at h1; exact AnimPC.noConfusion h1
  | stopTestTrue h1 _ => rw [hret] at h1; exact StopPC.noConfusion h1
  | stopTestFalse h1 _ => rw [hret] at h1; exact StopPC.noConfusion h1
  | stopJoin h1 _ => rw [hret] at h1; exact StopPC.noConfusion h1
  | stopClear h1 => rw [hret] at h1; exact StopPC.noConfusion h1
  | stopFinal h1 => rw [hret] at h1; exact StopPC.noConfusion h1

/-! ## Helper lemmas about progress-scope traces -/

theorem foldl_callUpdate (us : List String) (t : Trace) :
    (us.foldl callUpdate t).events = t.events ++ us.map SpinEv.update ∧
    (us.foldl callUpdate t).out = t.out ∧
    (us.foldl callUpdate t).spinner =
      ⟨us.getLastD t.spinner.message, t.spinner.color, t.spinner.running, t.spinner.thread⟩ := by
  induction us generalizing t with
  | nil => exact ⟨by simp, rfl, rfl⟩
  | cons a as ih =>
    obtain ⟨h1, h2, h3⟩ := ih (callUpdate t a)
    refine ⟨?_, h2, ?_⟩
    · rw [List.foldl_cons, h1]
      simp [callUpdate, List.append_assoc]
    · rw [List.foldl_cons, h3, List.getLastD_cons]
      rfl

theorem show_progress_ok_trace {α : Type} (m sm : String) (us : List String) (v : α) :
    (show_progress m sm us (Except.ok v)).1.events =
      SpinEv.start :: (us.map SpinEv.update ++
        [SpinEv.stop (pyOr sm (pyReplace m "..." " ✓")) "✓" Colors.GREEN]) ∧
    (show_progress m sm us (Except.ok v)).2 = Except.ok v := by
  have h1 := (foldl_callUpdate us (callStart (Trace.mk (Spinner.init m Colors.CYAN) [] []))).1
  constructor
  · simp only [show_progress, callStop]
    rw [h1]
    simp [callStart]
  · rfl

theorem show_progress_err_trace {α : Type} (m sm : String) (us : List String) (e : PyErr) :
    (@show_progress α m sm us (Except.error e)).1.events =
      SpinEv.start :: (us.map SpinEv.update ++
        [SpinEv.stop ("Failed: " ++ PyErr.str e) "✗" Colors.RED]) ∧
    (@show_progress α m sm us (Except.error e)).2 = Except.error e := by
  have h1 := (foldl_callUpdate us (callStart (Trace.mk (Spinner.init m Colors.CYAN) [] []))).1
  constructor
  · simp only [show_progress, callStop]
    rw [h1]
    simp [callStart]
  · rfl

theorem UI_progress_eq {α : Type} (ui : UI) (m sm : String) (us : List String)
    (oc : Except PyErr α) :
    (UI.progress ui m sm us oc).2 = show_progress m sm us oc ∧
    (UI.progress ui m sm us oc).1 = UI.mk none := by
  cases oc <;> exact ⟨rfl, rfl⟩

theorem countP_map_update_isStart (us : List String) :
    (us.map SpinEv.update).countP SpinEv.isStart = 0 := by
  induction us with
  | nil => rfl
  | cons a as ih => simp [List.countP_cons, SpinEv.isStart, ih]

theorem countP_map_update_isStop (us : List String) :
    (us.map SpinEv.update).countP SpinEv.isStop = 0 := by
  induction us with
  | nil => rfl
  | cons a as ih => simp [List.countP_cons, SpinEv.isStop, ih]

theorem countP_shape_start (us : List String) (f sy c : String) :
    (SpinEv.start :: (us.map SpinEv.update ++ [SpinEv.stop f sy c])).countP
      SpinEv.isStart = 1 := by
  simp [List.countP_cons, List.countP_append, countP_map_update_isStart,
    SpinEv.isStart]

theorem countP_shape_stop (us : List String) (f sy c : String) :
    (SpinEv.start :: (us.map SpinEv.update ++ [SpinEv.stop f sy c])).countP
      SpinEv.isStop = 1 := by
  simp [List.countP_cons, List.countP_append, countP_map_update_isStop,
    SpinEv.isStop]

theorem show_progress_events_shape {α : Type} (m sm : String) (us : List String)
    (oc : Except PyErr α) :
    ∃ f sy c, (show_progress m sm us oc).1.events =
      SpinEv.start :: (us.map SpinEv.update ++ [SpinEv.stop f sy c]) := by
  cases oc with
  | ok v => exact ⟨_, _, _, (show_progress_ok_trace m sm us v).1⟩
  | error e => exact ⟨_, _, _, (show_progress_err_trace m sm us e).1⟩

/-- If `pat` does not occur in `l`, the scan replaces nothing. -/
theorem pyReplaceAux_of_no_occurrence (pat rep : List Char) :
    ∀ fuel l, ¬ pat <:+: l → pyReplaceAux pat rep fuel l = l := by
  intro fuel
  induction fuel with
  | zero => intro l _; cases l <;> rfl
  | succ n ih =>
    intro l hl
    cases l with
    | nil => rfl
    | cons c rest =>
      rw [pyReplaceAux, if_neg, ih rest]
      · intro hinf
        obtain ⟨s, t, hst⟩ := hinf
        exact hl ⟨c :: s, t, by simp [hst]⟩
      · rintro ⟨⟨t, ht⟩, -⟩
        exact hl ⟨[], t, by simpa using ht⟩

theorem pyReplace_of_no_occurrence (m : String)
    (h : ¬ ("...".toList <:+: m.toList)) : pyReplace m "..." " ✓" = m := by
  unfold pyReplace
  rw [pyReplaceAux_of_no_occurrence _ _ _ _ h]
  rfl

/-- The `k`-th of `n` animation ticks starting at index `idx` writes the
frame for index `idx + k`. -/
theorem animate_getElem (s : Spinner) :
    ∀ n idx k, k < n →
      (s.animate idx n)[k]? = some (frameStr s.color (idx + k) s.message) := by
  intro n
  induction n with
  | zero => intro idx k h; omega
  | succ n ih =>
    intro idx k h
    cases k with
    | zero => simp [Spinner.animate]
    | succ k =>
      have hk : k < n := by omega
      simp only [Spinner.animate, List.getElem?_cons_succ]
      rw [ih (idx + 1) k hk]
      ring_nf

/-- Folding `update_message` calls over a spinner replaces exactly the
`message` field, last write winning. -/
theorem foldl_update_message (s : Spinner) (us : List String) :
    us.foldl Spinner.update_message s =
      ⟨us.getLastD s.message, s.color, s.running, s.thread⟩ := by
  induction us generalizing s with
  | nil => rfl
  | cons a as ih =>
    rw [List.foldl_cons, ih, List.getLastD_cons]
    rfl

/-! ## Claims -/

/-- Claim C1: if the enclosed work raises an error, both the `show_progress`
decorator and the `UI.progress` context manager stop the spinner with
completion text `"Failed: "` followed by the error's description, the ✗
glyph and the red failure color, and then re-raise the very same error
object to the caller — the scope never swallows or replaces it. -/
theorem progress_failure_reraises_same_error {α : Type} (ui : UI)
    (m sm : String) (us : List String) (e : PyErr) :
    (@show_progress α m sm us (Except.error e)).1.events =
      SpinEv.start :: (us.map SpinEv.update ++
        [SpinEv.stop ("Failed: " ++ PyErr.str e) "✗" Colors.RED]) ∧
    (@show_progress α m sm us (Except.error e)).2 = Except.error e ∧
    (@UI.progress α ui m sm us (Except.error e)).2.1.events =
      SpinEv.start :: (us.map SpinEv.update ++
        [SpinEv.stop ("Failed: " ++ PyErr.str e) "✗" Colors.RED]) ∧
    (@UI.progress α ui m sm us (Except.error e)).2.2 = Except.error e := by
  obtain ⟨h1, h2⟩ := @show_progress_err_trace α m sm us e
  have hu := (@UI_progress_eq α ui m sm us (Except.error e)).1
  refine ⟨h1, h2, ?_, ?_⟩
  · rw [hu]; exact h1
  · rw [hu]; exact h2

/-- Claim C2: every progress-scope activation (decorator or context-manager
form), for any number of `update_message` calls and either outcome, calls
`Spinner.start` exactly once — first — and `Spinner.stop` exactly once —
last: the trace is `start`, then the updates, then a single `stop`, so no
activation skips the started state or restarts after stopping. -/
theorem progress_scope_start_stop_exactly_once {α : Type} (ui : UI)
    (m sm : String) (us : List String) (oc : Except PyErr α) :
    ((show_progress m sm us oc).1.events.countP SpinEv.isStart = 1 ∧
     (show_progress m sm us oc).1.events.countP SpinEv.isStop = 1 ∧
     ∃ f sy c, (show_progress m sm us oc).1.events =
       SpinEv.start :: (us.map SpinEv.update ++ [SpinEv.stop f sy c])) ∧
    ((UI.progress ui m sm us oc).2.1.events.countP SpinEv.isStart = 1 ∧
     (UI.progress ui m sm us oc).2.1.events.countP SpinEv.isStop = 1 ∧
     ∃ f sy c, (UI.progress ui m sm us oc).2.1.events =
       SpinEv.start :: (us.map SpinEv.update ++ [SpinEv.stop f sy c])) := by
  obtain ⟨f, sy, c, hsh⟩ := show_progress_events_shape m sm us oc
  have hu := (UI_progress_eq ui m sm us oc).1
  constructor
  · rw [hsh]
    exact ⟨countP_shape_start us f sy c, countP_shape_stop us f sy c, f, sy, c, rfl⟩
  · rw [hu, hsh]
    exact ⟨countP_shape_start us f sy c, countP_shape_stop us f sy c, f, sy, c, rfl⟩

/-- Claim C3: on the success path the completion text passed to
`Spinner.stop` is `success_message` when non-empty, else `message` with the
literal substring `"..."` replaced by `" ✓"` (and `message` unchanged when
it contains no `"..."`); `"Loading..."` derives `"Loading ✓"` and
`"Loading data"` stays unchanged. -/
theorem progress_success_completion_text {α : Type} (ui : UI)
    (m sm : String) (us : List String) (v : α) :
    (show_progress m sm us (Except.ok v)).1.events =
      SpinEv.start :: (us.map SpinEv.update ++
        [SpinEv.stop (pyOr sm (pyReplace m "..." " ✓")) "✓" Colors.GREEN]) ∧
    (UI.progress ui m sm us (Except.ok v)).2.1.events =
      SpinEv.start :: (us.map SpinEv.update ++
        [SpinEv.stop (pyOr sm (pyReplace m "..." " ✓")) "✓" Colors.GREEN]) ∧
    (sm ≠ "" → pyOr sm (pyReplace m "..." " ✓") = sm) ∧
    (sm = "" → pyOr sm (pyReplace m "..." " ✓") = pyReplace m "..." " ✓") ∧
    (¬ ("...".toList <:+: m.toList) → pyReplace m "..." " ✓" = m) ∧
    pyReplace "Loading..." "..." " ✓" = "Loading ✓" ∧
    pyReplace "Loading data" "..." " ✓" = "Loading data" := by
  have h1 := (show_progress_ok_trace m sm us v).1
  have hu := (UI_progress_eq ui m sm us (Except.ok v)).1
  refine ⟨h1, by rw [hu]; exact h1, fun hne => ?_, fun he => ?_,
    pyReplace_of_no_occurrence m, by decide, by decide⟩
  · simp [pyOr, hne]
  · simp [pyOr, he]

/-- Witness for C3: with no explicit success message, `"Loading..."`
derives `"Loading ✓"` and `"Loading data"` (no `"..."`) is unchanged. -/
theorem progress_success_completion_text_witness :
    pyOr "" (pyReplace "Loading..." "..." " ✓") =
      pyReplace "Loading..." "..." " ✓" ∧
    pyReplace "Loading data" "..." " ✓" = "Loading data" :=
  ⟨(progress_success_completion_text (UI.mk none) "Loading..." "" []
      (0 : Nat)).2.2.2.1 rfl,
   (progress_success_completion_text (UI.mk none) "Loading data" "" []
      (0 : Nat)).2.2.2.2.1 (by decide)⟩

/-- Claim C4: starting from a running spinner (`stop()` at its entry test,
flag set, no clear written yet), once `stop()` has returned: the background
animation unit has observed the flag and exited (the join), every frame
write in the stdout history strictly precedes the clearing write — the
background unit's writes never interleave with the clear-and-final-line
sequence — and the joint system has no step left, so no frame write occurs
after `stop()` returns. -/
theorem stop_joins_before_clearing (final symbol symbol_color : String)
    {s0 s : MState} (h0pc : s0.stopPC = StopPC.entry) (h0run : s0.running = true)
    (h0out : noClear s0.out)
    (hr : Reaches final symbol symbol_color s0 s)
    (hret : s.stopPC = StopPC.returned) :
    s.animPC = AnimPC.exited ∧
    (∀ (i j : Nat) (fs cs : String), s.out[i]? = some (OutEv.frame fs) →
      s.out[j]? = some (OutEv.clearLine cs) → i < j) ∧
    (∀ s2, ¬ Step final symbol symbol_color s s2) := by
  have hinv0 : MInv s0 := by
    refine ⟨fun _ => ⟨h0run, h0out⟩, fun h => ?_, fun h => ?_, fun h => ?_⟩
    · rw [h0pc] at h; exact StopPC.noConfusion h
    · rw [h0pc] at h; exact StopPC.noConfusion h
    · rcases h with h | h <;> (rw [h0pc] at h; exact StopPC.noConfusion h)
  have hinv := MInv_reaches hr hinv0
  obtain ⟨hE, l1, l2, hout, hnc, hnf⟩ := hinv.2.2.2 (Or.inr hret)
  refine ⟨hE, ?_, returned_no_step hret hE⟩
  intro i j fs cs hf hc
  rw [hout] at hf hc
  exact frames_precede_clear hnc hnf hf hc

/-- A running spinner with `stop("Done","✓",green)` about to execute. -/
def stopRunInit : MState :=
  ⟨true, "Working...", Colors.CYAN, 0, AnimPC.check, StopPC.entry, []⟩

/-- The state after the interleaving flag-flip, loop-test, join, clear,
final print. -/
def stopRunFinal : MState :=
  ⟨false, "Working...", Colors.CYAN, 0, AnimPC.exited, StopPC.returned,
    [OutEv.clearLine (clearStr "Working..."),
     OutEv.finalLine (finalStr Colors.GREEN "✓" "Done")]⟩

/-- Witness for C4: a concrete interleaved run of `stop("Done","✓",green)`
against the animation loop of a running spinner. -/
theorem stop_joins_before_clearing_witness :
    stopRunFinal.animPC = AnimPC.exited ∧
    (∀ (i j : Nat) (fs cs : String), stopRunFinal.out[i]? = some (OutEv.frame fs) →
      stopRunFinal.out[j]? = some (OutEv.clearLine cs) → i < j) ∧
    (∀ s2, ¬ Step "Done" "✓" Colors.GREEN stopRunFinal s2) := by
  have hreach : Reaches "Done" "✓" Colors.GREEN stopRunInit stopRunFinal := by
    have r1 : Reaches "Done" "✓" Colors.GREEN stopRunInit
        ⟨false, "Working...", Colors.CYAN, 0, AnimPC.check, StopPC.waitJoin, []⟩ :=
      Reaches.tail (Reaches.refl stopRunInit) (Step.stopTestTrue rfl rfl)
    have r2 : Reaches "Done" "✓" Colors.GREEN stopRunInit
        ⟨false, "Working...", Colors.CYAN, 0, AnimPC.exited, StopPC.waitJoin, []⟩ :=
      Reaches.tail r1 (Step.animCheckFalse rfl rfl)
    have r3 : Reaches "Done" "✓" Colors.GREEN stopRunInit
        ⟨false, "Working...", Colors.CYAN, 0, AnimPC.exited, StopPC.doClear, []⟩ :=
      Reaches.tail r2 (Step.stopJoin rfl rfl)
    have r4 : Reaches "Done" "✓" Colors.GREEN stopRunInit
        ⟨false, "Working...", Colors.CYAN, 0, AnimPC.exited, StopPC.doFinal,
          [OutEv.clearLine (clearStr "Working...")]⟩ :=
      Reaches.tail r3 (Step.stopClear rfl)
    exact Reaches.tail r4 (Step.stopFinal rfl)
  exact stop_joins_before_clearing "Done" "✓" Colors.GREEN rfl rfl
    (fun cs h => List.not_mem_nil _ h) hreach rfl

/-- Claim C5: misuse calls are silent no-ops guarded by the `running` flag:
`start()` on a running spinner changes nothing and launches no second
animation thread; `stop()` on a non-running spinner writes nothing and
changes nothing; and after any `stop()` the spinner is not running, so a
second `stop()` is again a silent no-op. (The embedding is total, so none
of these raise.) -/
theorem spinner_misuse_silent_noops (s : Spinner) (f sy c f2 sy2 c2 : String) :
    (s.running = true → s.start = (s, false)) ∧
    (s.running = false → s.stop f sy c = (s, [])) ∧
    (s.stop f sy c).1.running = false ∧
    (s.stop f sy c).1.stop f2 sy2 c2 = ((s.stop f sy c).1, []) := by
  cases hr : s.running with
  | true =>
    refine ⟨fun _ => by simp [Spinner.start, hr],
      fun h => Bool.noConfusion h, ?_, ?_⟩
    · simp [Spinner.stop, hr]
    · simp [Spinner.stop, hr]
  | false =>
    refine ⟨fun h => Bool.noConfusion h,
      fun _ => by simp [Spinner.stop, hr], ?_, ?_⟩
    · simp [Spinner.stop, hr]
    · simp [Spinner.stop, hr]

/-- Witness for C5: `start()` on a concrete running spinner is a no-op with
no thread launched, and `stop()` on a concrete non-running spinner writes
nothing and changes nothing. -/
theorem spinner_misuse_silent_noops_witness :
    (Spinner.mk "Loading..." Colors.CYAN true true).start =
      (Spinner.mk "Loading..." Colors.CYAN true true, false) ∧
    (Spinner.mk "x" Colors.CYAN false false).stop "Done" "✓" Colors.GREEN =
      (Spinner.mk "x" Colors.CYAN false false, []) :=
  ⟨(spinner_misuse_silent_noops (Spinner.mk "Loading..." Colors.CYAN true true)
      "" "" "" "" "" "").1 rfl,
   (spinner_misuse_silent_noops (Spinner.mk "x" Colors.CYAN false false)
      "Done" "✓" Colors.GREEN "" "" "").2.1 rfl⟩

/-- Claim C6: `stop(final_message, symbol, symbol_color)` on a running
spinner first writes the clearing sequence — carriage return, spaces
(message length plus ten), carriage return — and then prints
`symbol_color ++ symbol ++ reset ++ " " ++ final_message` with a trailing
newline if and only if `final_message` is non-empty; when it is empty,
nothing is written after the clear. -/
theorem spinner_stop_clear_then_final (s : Spinner) (f sy c : String)
    (hrun : s.running = true) :
    (s.stop f sy c).2 =
      ("\r" ++ String.mk (List.replicate (s.message.length + 10) ' ') ++ "\r") ::
        (if f = "" then [] else [c ++ sy ++ Colors.ENDC ++ " " ++ f ++ "\n"]) ∧
    (f ≠ "" → (s.stop f sy c).2 = [clearStr s.message, finalStr c sy f]) ∧
    (f = "" → (s.stop f sy c).2 = [clearStr s.message]) := by
  refine ⟨by simp [Spinner.stop, hrun, clearStr, finalStr], fun hne => ?_,
    fun he => ?_⟩
  · simp [Spinner.stop, hrun, hne]
  · simp [Spinner.stop, hrun, he]

/-- Witness for C6: `stop("Done", "✓", green)` on a concrete running
spinner writes the clear sequence and then the `✓ Done` line. -/
theorem spinner_stop_clear_then_final_witness :
    ((Spinner.mk "Working..." Colors.CYAN true true).stop "Done" "✓"
      Colors.GREEN).2 = [clearStr "Working...", finalStr Colors.GREEN "✓" "Done"] :=
  ((spinner_stop_clear_then_final (Spinner.mk "Working..." Colors.CYAN true true)
    "Done" "✓" Colors.GREEN rfl).2.1 (by decide))

/-- Claim C7: tick `k` (counting from 0) of the animation loop writes exactly
`"\r" ++ color ++ FRAMES[k % len(FRAMES)] ++ reset ++ " " ++ message`
(carriage return, no newline), where `FRAMES` is the fixed 10-element
braille cycle accessed by index mod length; successive ticks advance the
index by one and are separated by the fixed 0.08 s (80 ms) sleep. -/
theorem spinner_animation_tick_format (s : Spinner) (n k : Nat) (h : k < n) :
    (s.animate 0 n)[k]? =
      some ("\r" ++ s.color ++ FRAMES.getD (k % FRAMES.length) "" ++
        Colors.ENDC ++ " " ++ s.message) ∧
    FRAMES = ["⠋", "⠙", "⠹", "⠸", "⠼", "⠴", "⠦", "⠧", "⠇", "⠏"] ∧
    FRAMES.length = 10 ∧
    sleepSeconds * 1000 = 80 := by
  refine ⟨?_, rfl, rfl, by norm_num [sleepSeconds]⟩
  simpa [frameStr] using animate_getElem s n 0 k h

/-- Witness for C7: the second tick (index 1) of a concrete spinner writes
frame `FRAMES[1]` with the cyan color and the message. -/
theorem spinner_animation_tick_format_witness :
    ((Spinner.mk "Working..." Colors.CYAN true true).animate 0 3)[1]? =
      some ("\r" ++ Colors.CYAN ++ FRAMES.getD (1 % FRAMES.length) "" ++
        Colors.ENDC ++ " " ++ "Working...") :=
  (spinner_animation_tick_format (Spinner.mk "Working..." Colors.CYAN true true)
    3 1 (by decide)).1

/-- Claim C8: each `update_message` call replaces the `message` field with its
argument — last write wins, `color` and `running` untouched — and any
animation tick rendered after the calls displays the argument of the last
call (or the construction message when no call was made). -/
theorem update_message_last_write_wins (s : Spinner) (us : List String) (n : Nat) :
    (us.foldl Spinner.update_message s).message = us.getLastD s.message ∧
    (us.foldl Spinner.update_message s).color = s.color ∧
    (us.foldl Spinner.update_message s).running = s.running ∧
    frameStr (us.foldl Spinner.update_message s).color n
        (us.foldl Spinner.update_message s).message =
      "\r" ++ s.color ++ FRAMES.getD (n % FRAMES.length) "" ++ Colors.ENDC ++
        " " ++ us.getLastD s.message := by
  rw [foldl_update_message]
  exact ⟨rfl, rfl, rfl, rfl⟩

/-- Claim C9: the `show_progress` decorator form and the `UI.progress`
context-manager form are equivalent: for every message, success message,
update sequence and outcome they produce the identical spinner trace
(same construction with the cyan color, same start, updates and stop
arguments on success and on failure, same stdout writes) and propagate the
identical result. -/
theorem decorator_equals_context_manager {α : Type} (ui : UI) (m sm : String)
    (us : List String) (oc : Except PyErr α) :
    (UI.progress ui m sm us oc).2.1 = (show_progress m sm us oc).1 ∧
    (UI.progress ui m sm us oc).2.2 = (show_progress m sm us oc).2 := by
  have h := (UI_progress_eq ui m sm us oc).1
  exact ⟨congrArg Prod.fst h, congrArg Prod.snd h⟩

/-- Claim C10: when the wrapped callable returns normally, the function
produced by the `show_progress` decorator returns exactly the value the
callable returned, unchanged. -/
theorem show_progress_transparent_result {α : Type} (m sm : String)
    (us : List String) (v : α) :
    (show_progress m sm us (Except.ok v)).2 = Except.ok v :=
  (show_progress_ok_trace m sm us v).2
